import Mathlib

/-!
Verification of the result-shaping pipeline of the memos client
(file src/enhanced_memos.py): filtering, time sort, pagination,
response formatting, snippet extraction, relevance scoring and the
relevance re-sort.

Strings are modelled as lists of characters; Python string operations
(lower, find, count, replace, slicing, strip, startswith, split, join)
are given executable Lean counterparts with Python semantics.  Python
floats appearing in the scoring and summarization code are modelled as
exact rationals; the literal 0.7 threshold is modelled as the exact
rational 7/10.  Python ints are modelled as Lean integers.
-/

/-- Python string comparison (lexicographic by code point, a proper
prefix is smaller).  Used for createTime comparisons in the date
filter.  Returns true when a is less than or equal to b. -/
def pyStrLe : List Char → List Char → Bool
  | [], _ => true
  | _ :: _, [] => false
  | a :: as, b :: bs => if a = b then pyStrLe as bs else decide (a < b)

/-- Python str.lower, modelled characterwise. -/
def lowerStr (s : List Char) : List Char := s.map Char.toLower

/-- Python startswith: pyStartsWith s pre is true when pre is a prefix
of s. -/
def pyStartsWith : List Char → List Char → Bool
  | _, [] => true
  | [], _ :: _ => false
  | c :: cs, d :: ds => if c = d then pyStartsWith cs ds else false

/-- Python str.find of pat in hay: index of the leftmost occurrence,
none when absent (Python returns the sentinel -1). -/
def strFind : List Char → List Char → Option Nat
  | hay, pat =>
    if pyStartsWith hay pat = true then some 0
    else
      match hay with
      | [] => none
      | _ :: t =>
        match strFind t pat with
        | none => none
        | some i => some (i + 1)

/-- Python str.find with a start offset: searches hay from position
start, returning an absolute index. -/
def findFrom (hay pat : List Char) (start : Nat) : Option Nat :=
  match strFind (hay.drop start) pat with
  | none => none
  | some i => some (i + start)

/-- Python substring membership test (the in operator). -/
def isSubstr (hay pat : List Char) : Bool := (strFind hay pat).isSome

/-- Fuel-driven worker for strCount; the fuel hay.length + 1 dominates
the number of non-overlapping matches. -/
def strCountAux : Nat → List Char → List Char → Nat
  | 0, _, _ => 0
  | fuel + 1, hay, pat =>
    match strFind hay pat with
    | none => 0
    | some i => 1 + strCountAux fuel (hay.drop (i + pat.length)) pat

/-- Python str.count: number of non-overlapping occurrences of pat in
hay, scanning left to right. -/
def strCount (hay pat : List Char) : Nat := strCountAux (hay.length + 1) hay pat

/-- Normalization of one Python slice index against a length: negative
indices count from the end, and the result is clipped into [0, len]. -/
def pySliceIdx (len : Nat) (i : ℤ) : Nat :=
  if i < 0 then (i + len).toNat else min i.toNat len

/-- Python list/string slicing xs[start:stop] with step 1. -/
def pySlice {α : Type} (xs : List α) (start stop : ℤ) : List α :=
  (xs.take (pySliceIdx xs.length stop)).drop (pySliceIdx xs.length start)

/-- Python s.rsplit(' ', 1)[0]: everything before the last space, or
the whole string when it has no space. -/
def rsplitLastSpace (s : List Char) : List Char :=
  match s.reverse.dropWhile (fun c => decide (c ≠ ' ')) with
  | [] => s
  | _ :: t => t.reverse

/-- Python str.strip: remove leading and trailing whitespace. -/
def pyStrip (s : List Char) : List Char :=
  ((s.dropWhile Char.isWhitespace).reverse.dropWhile Char.isWhitespace).reverse

/-- Fuel-driven worker for pyReplace; fuel hay.length + 1 dominates
the number of replacements for a non-empty pattern. -/
def pyReplaceAux : Nat → List Char → List Char → List Char → List Char
  | 0, hay, _, _ => hay
  | fuel + 1, hay, old, new =>
    match strFind hay old with
    | none => hay
    | some i => hay.take i ++ new ++ pyReplaceAux fuel (hay.drop (i + old.length)) old new

/-- Python str.replace(old, new): replaces every non-overlapping
occurrence of old in hay, scanning left to right. -/
def pyReplace (hay old new : List Char) : List Char :=
  pyReplaceAux (hay.length + 1) hay old new

/-- First line of a content string: content.split of a newline, index
zero. -/
def firstLineOf (content : List Char) : List Char :=
  (content.splitOn '\n').headD []

/-- Python truthiness of an optional string: present and non-empty. -/
def optTruthy : Option (List Char) → Bool
  | none => false
  | some s => decide (s ≠ [])

/-- The four response formats of the client (class ResponseFormat). -/
inductive ResponseFormat where
  | full
  | summary
  | minimal
  | id_only
deriving DecidableEq

/-- Search parameters (class EnhancedMemosSearchParams).  Integer
fields are Python ints, strings are char lists; date bounds are
optional strings. -/
structure SearchParams where
  query : List Char
  limit : ℤ
  offset : ℤ
  fields : List (List Char)
  summary_only : Bool
  content_max_length : ℤ
  date_from : Option (List Char)
  date_to : Option (List Char)
  tags_filter : List (List Char)
  response_format : ResponseFormat
  group_by_tag : Bool
deriving DecidableEq

/-- Parameter validation run at construction
(EnhancedMemosSearchParams.post-init): limit clamped into [1, 50],
offset clamped to at least 0, content_max_length clamped into
[50, 2000]; the clamps are applied sequentially as in the source. -/
def postInit (p : SearchParams) : SearchParams :=
  let lim1 := if p.limit > 50 then (50 : ℤ) else p.limit
  let lim2 := if lim1 < 1 then (1 : ℤ) else lim1
  let off := if p.offset < 0 then (0 : ℤ) else p.offset
  let cml1 := if p.content_max_length < 50 then (50 : ℤ) else p.content_max_length
  let cml2 := if cml1 > 2000 then (2000 : ℤ) else cml1
  ⟨p.query, lim2, off, p.fields, p.summary_only, cml2, p.date_from, p.date_to,
    p.tags_filter, p.response_format, p.group_by_tag⟩

/-- A raw note record as read from the store: the fields the shaping
pipeline reads (memo.get of name, content, tags, createTime,
updateTime). -/
structure Memo where
  name : List Char
  content : List Char
  tags : List (List Char)
  createTime : List Char
  updateTime : List Char
deriving DecidableEq

/-- A formatted note: the per-record output dictionary, modelled as a
record of optional fields where none means the key is absent. -/
structure FormattedMemo where
  id : List Char
  createTime : Option (List Char)
  updateTime : Option (List Char)
  snippet : Option (List Char)
  tags : Option (List (List Char))
  content : Option (List Char)
  match_snippets : Option (List (List Char))
  relevance_score : Option ℚ
deriving DecidableEq

/-- The query_metadata mapping attached to a search response. -/
structure QueryMetadata where
  query : List Char
  limit : ℤ
  offset : ℤ
  format : ResponseFormat
  filtered_count : Nat
  returned_count : Nat
deriving DecidableEq

/-- The search response (class SearchResponse). -/
structure SearchResponse where
  memos : List FormattedMemo
  total_count : Nat
  has_more : Bool
  next_offset : ℤ
  query_metadata : QueryMetadata
deriving DecidableEq

/-- Extension of the snippet window to the left: decrement the start
index while the character just before it is alphanumeric
(the while loop over snippet_start in the source). -/
def extendLeft (content : List Char) : Nat → Nat
  | 0 => 0
  | s + 1 =>
    if h : s < content.length then
      if (content.get ⟨s, h⟩).isAlphanum then extendLeft content s else s + 1
    else s + 1

/-- Fuel-driven worker for extendRight; fuel content.length dominates
the number of increments. -/
def extendRightAux (content : List Char) : Nat → Nat → Nat
  | 0, e => e
  | fuel + 1, e =>
    if h : e < content.length then
      if (content.get ⟨e, h⟩).isAlphanum then extendRightAux content fuel (e + 1) else e
    else e

/-- Extension of the snippet window to the right: increment the end
index while the character at it is alphanumeric (the while loop over
snippet_end in the source). -/
def extendRight (content : List Char) (e : Nat) : Nat :=
  extendRightAux content content.length e

/-- The snippet built for one match position pos: context window
clipped to the content bounds, word-boundary extension, ellipsis
markers at clipped edges, and emphasis marking of the original-case
matched substring by Python str.replace (the loop body of
EnhancedMemos extract-snippet-around-match). -/
def snippetAtPos (content query : List Char) (contextChars : Nat) (pos : Nat) : List Char :=
  let snippetStart0 := pos - contextChars
  let snippetEnd0 := min content.length (pos + query.length + contextChars)
  let snippetStart := extendLeft content snippetStart0
  let snippetEnd := extendRight content snippetEnd0
  let snippet0 := (content.take snippetEnd).drop snippetStart
  let snippet1 := if 0 < snippetStart then "...".data ++ snippet0 else snippet0
  let snippet2 := if snippetEnd < content.length then snippet1 ++ "...".data else snippet1
  let matched := (content.drop pos).take query.length
  pyReplace snippet2 matched ("**".data ++ matched ++ "**".data)

/-- Fuel-driven list of match positions produced by the scan loop of
the snippet extractor: repeated find with the search resuming from
pos + 1 after each match. -/
def overlapPositionsAux (hay pat : List Char) : Nat → Nat → List Nat
  | 0, _ => []
  | fuel + 1, start =>
    match findFrom hay pat start with
    | none => []
    | some pos => pos :: overlapPositionsAux hay pat fuel (pos + 1)

/-- Match positions of pat in hay found by the left-to-right scan that
resumes from matchStart + 1 (overlapping occurrences are re-found). -/
def overlapPositions (hay pat : List Char) : List Nat :=
  overlapPositionsAux hay pat (hay.length + 1) 0

/-- Fuel-driven main loop of the snippet extractor: find the next
occurrence in the lowered content, emit its snippet, resume from
pos + 1. -/
def extractLoop (content query cl ql : List Char) (contextChars : Nat) :
    Nat → Nat → List (List Char)
  | 0, _ => []
  | fuel + 1, start =>
    match findFrom cl ql start with
    | none => []
    | some pos =>
      snippetAtPos content query contextChars pos ::
        extractLoop content query cl ql contextChars fuel (pos + 1)

/-- EnhancedMemos extract-snippet-around-match: snippets with context
around each (overlap-tolerant) case-insensitive occurrence of query in
content; empty for an empty query or empty content. -/
def extractSnippetAroundMatch (content query : List Char) (contextChars : Nat) :
    List (List Char) :=
  if query = [] ∨ content = [] then []
  else extractLoop content query (lowerStr content) (lowerStr query) contextChars
    (content.length + 1) 0

/-- EnhancedMemos calculate-relevance-score: 0.5 for an empty query,
otherwise min 1 of (occurrences + title bonus + tag bonus + position
score) / 10, with Python floats modelled as rationals. -/
def calculateRelevanceScore (content query : List Char) (tags : List (List Char)) : ℚ :=
  if query = [] then 1 / 2
  else
    let ql := lowerStr query
    let cl := lowerStr content
    let matchCount : ℚ := strCount cl ql
    let firstLine := if content ≠ [] then (content.splitOn '\n').headD [] else []
    let titleBonus : ℚ := if isSubstr (lowerStr firstLine) ql = true then 2 else 0
    let tagBonus : ℚ :=
      if tags ≠ [] ∧ tags.any (fun t => isSubstr (lowerStr t) ql) = true then 1 else 0
    let positionScore : ℚ :=
      match strFind cl ql with
      | some i => 1 - (i : ℚ) / (content.length : ℚ)
      | none => 0
    let rawScore := matchCount + titleBonus + tagBonus + positionScore
    min 1 (rawScore / 10)

/-- Length of the Python join of parts with a single space. -/
def joinLen (parts : List (List Char)) : Nat :=
  (List.intercalate " ".data parts).length

/-- Predicate of the first summarization pass: header lines and list
item lines. -/
def isHeaderOrListLine (line : List Char) : Bool :=
  pyStartsWith line "#".data || pyStartsWith line "-".data ||
    pyStartsWith line "*".data || pyStartsWith line "1.".data

/-- First pass of the structural summary: walk the remaining lines,
strip each, skip blank lines, and append header or list lines while
the running joined length plus the line length stays under the
remaining budget. -/
def summaryPass1 (remaining : ℤ) : List (List Char) → List (List Char) → List (List Char)
  | parts, [] => parts
  | parts, l :: ls =>
    let line := pyStrip l
    if line = [] then summaryPass1 remaining parts ls
    else if isHeaderOrListLine line = true then
      if (joinLen parts : ℤ) + line.length < remaining then
        summaryPass1 remaining (parts ++ [line]) ls
      else summaryPass1 remaining parts ls
    else summaryPass1 remaining parts ls

/-- Second pass of the structural summary: walk the remaining lines
again and append each stripped line that is non-blank and does not
start with the hash character or the dash character, under the same
budget.  Note the source excludes only those two markers here. -/
def summaryPass2 (remaining : ℤ) : List (List Char) → List (List Char) → List (List Char)
  | parts, [] => parts
  | parts, l :: ls =>
    let line := pyStrip l
    if line ≠ [] ∧ pyStartsWith line "#".data = false ∧ pyStartsWith line "-".data = false then
      if (joinLen parts : ℤ) + line.length < remaining then
        summaryPass2 remaining (parts ++ [line]) ls
      else summaryPass2 remaining parts ls
    else summaryPass2 remaining parts ls

/-- Accumulated line list of the structural (no-query) summary path:
the first line, the first pass over header and list lines, and, when
the joined length is still under 70 percent of maxLength (the float
literal 0.7 modelled as the exact rational 7/10), the second pass. -/
def structuralSummaryParts (lines : List (List Char)) (maxLength : ℤ) : List (List Char) :=
  match lines with
  | [] => []
  | l0 :: rest =>
    let remaining := maxLength - (l0.length : ℤ)
    let p1 := summaryPass1 remaining [l0] rest
    if 10 * (joinLen p1 : ℤ) < 7 * maxLength then summaryPass2 remaining p1 rest else p1

/-- EnhancedMemos generate-smart-summary: snippet-joined summary when
a query matches, otherwise the structural summary with word-boundary
truncation. -/
def generateSmartSummary (memo : Memo) (query : List Char) (maxLength : ℤ) : List Char :=
  let content := memo.content
  if content = [] then []
  else if query ≠ [] ∧ extractSnippetAroundMatch content query 50 ≠ [] then
    let summary :=
      List.intercalate " [...] ".data ((extractSnippetAroundMatch content query 50).take 3)
    if (summary.length : ℤ) > maxLength then pySlice summary 0 maxLength ++ "...".data
    else summary
  else
    let parts := structuralSummaryParts (content.splitOn '\n') maxLength
    let summary := List.intercalate "\n".data parts
    if (summary.length : ℤ) > maxLength then
      rsplitLastSpace (pySlice summary 0 maxLength) ++ "...".data
    else summary

/-- EnhancedMemos apply-response-format: project one raw record into a
formatted note according to the response format; in the summary format
with an active query, attach the smart summary, up to three match
snippets and the relevance score. -/
def applyResponseFormat (memo : Memo) (p : SearchParams) (query : List Char) :
    FormattedMemo :=
  let memoId := memo.name
  if p.response_format = ResponseFormat.id_only then
    ⟨memoId, none, none, none, none, none, none, none⟩
  else if p.response_format = ResponseFormat.minimal then
    let firstLine :=
      if memo.content ≠ [] then ((memo.content.splitOn '\n').headD []).take 100 else []
    ⟨memoId, some memo.createTime, some memo.updateTime, some firstLine, some memo.tags,
      none, none, none⟩
  else if p.response_format = ResponseFormat.summary then
    if p.summary_only = true ∨ query ≠ [] then
      let contentS := generateSmartSummary memo query p.content_max_length
      let snips := extractSnippetAroundMatch memo.content query 50
      let ms := if query ≠ [] ∧ snips ≠ [] then some (snips.take 3) else none
      let rs :=
        if query ≠ [] then some (calculateRelevanceScore memo.content query memo.tags)
        else none
      ⟨memoId, some memo.createTime, some memo.updateTime, some [], some memo.tags,
        some contentS, ms, rs⟩
    else
      let tc0 := pySlice memo.content 0 p.content_max_length
      let tc :=
        if (memo.content.length : ℤ) > p.content_max_length then tc0 ++ "...".data else tc0
      ⟨memoId, some memo.createTime, some memo.updateTime, some [], some memo.tags,
        some tc, none, none⟩
  else
    let fc := if p.fields.contains "content".data then some memo.content else none
    let ft := if p.fields.contains "tags".data then some memo.tags else none
    ⟨memoId, some memo.createTime, some memo.updateTime, none, ft, fc, none, none⟩

/-- EnhancedMemos apply-date-filter: keep records with createTime at
or after date_from and at or before date_to, each bound applied only
when truthy, by raw string comparison. -/
def applyDateFilter (memos : List Memo) (dateFrom dateTo : Option (List Char)) :
    List Memo :=
  let m1 :=
    if optTruthy dateFrom = true then
      memos.filter (fun m => pyStrLe (dateFrom.getD []) m.createTime)
    else memos
  if optTruthy dateTo = true then
    m1.filter (fun m => pyStrLe m.createTime (dateTo.getD []))
  else m1

/-- The filter stage of search-memos-enhanced: the case-insensitive
text filter when query is non-empty, then the tag filter when
tags_filter is non-empty, then the date filter when a date bound is
truthy. -/
def filterStage (allMemos : List Memo) (p : SearchParams) : List Memo :=
  let f1 :=
    if p.query ≠ [] then
      allMemos.filter (fun m => isSubstr (lowerStr m.content) (lowerStr p.query))
    else allMemos
  let f2 :=
    if p.tags_filter ≠ [] then
      f1.filter (fun m => p.tags_filter.any (fun t => m.tags.contains t))
    else f1
  if (optTruthy p.date_from || optTruthy p.date_to) = true then
    applyDateFilter f2 p.date_from p.date_to
  else f2

/-- The sort stage: stable sort by createTime descending (Python
list.sort with a key and reverse set, which is a stable sort; any
stable sort under the same total preorder produces the same list, so
insertion sort is a faithful model). -/
def sortStage (memos : List Memo) : List Memo :=
  List.insertionSort (fun a b => pyStrLe b.createTime a.createTime = true) memos

/-- EnhancedMemos paginate-results: Python slice from offset to
offset + limit, the has_more flag, and the pre-pagination count. -/
def paginateResults (allItems : List Memo) (p : SearchParams) :
    List Memo × Bool × Nat :=
  let totalCount := allItems.length
  let startIdx := p.offset
  let endIdx := startIdx + p.limit
  (pySlice allItems startIdx endIdx, decide (endIdx < (totalCount : ℤ)), totalCount)

/-- The relevance re-sort: stable sort of the formatted page by
relevance score descending, a missing score reading as 0. -/
def relevanceSortStage (memos : List FormattedMemo) : List FormattedMemo :=
  List.insertionSort
    (fun a b => (b.relevance_score.getD 0) ≤ (a.relevance_score.getD 0)) memos

/-- EnhancedMemos search-memos-enhanced, from the fetched collection
on: filter, sort by creation time, paginate, format each page item,
re-sort by relevance when a query is active and some formatted note
carries a relevance score, and assemble the response. -/
def searchMemosEnhanced (allMemos : List Memo) (p : SearchParams) : SearchResponse :=
  let filtered := filterStage allMemos p
  let sorted := sortStage filtered
  let pg := paginateResults sorted p
  let formatted := pg.1.map (fun m => applyResponseFormat m p p.query)
  let formatted2 :=
    if p.query ≠ [] ∧ formatted.any (fun f => f.relevance_score.isSome) = true then
      relevanceSortStage formatted
    else formatted
  let nextOffset := if pg.2.1 = true then p.offset + p.limit else -1
  ⟨formatted2, pg.2.2, pg.2.1, nextOffset,
    ⟨p.query, p.limit, p.offset, p.response_format, pg.2.2, formatted2.length⟩⟩

/-- The conjunction of the active filter predicates, one record at a
time: text match when query is non-empty, tag match when tags_filter
is non-empty, and each date bound when truthy. -/
def matchesAllPredicates (m : Memo) (p : SearchParams) : Bool :=
  (!decide (p.query ≠ []) || isSubstr (lowerStr m.content) (lowerStr p.query)) &&
  (!decide (p.tags_filter ≠ []) || p.tags_filter.any (fun t => m.tags.contains t)) &&
  (!optTruthy p.date_from || pyStrLe (p.date_from.getD []) m.createTime) &&
  (!optTruthy p.date_to || pyStrLe m.createTime (p.date_to.getD []))

/-- Emphasis marking as the specification describes it: wrap only the
first textual occurrence of the matched substring inside the snippet.
This definition follows the wording of the specification and is
compared against the behavior of the source. -/
def highlightFirstOccurrence (snippet matched : List Char) : List Char :=
  match strFind snippet matched with
  | none => snippet
  | some i =>
    snippet.take i ++ "**".data ++ matched ++ "**".data ++ snippet.drop (i + matched.length)

lemma postInit_offset_nonneg (q : SearchParams) : 0 ≤ (postInit q).offset := by
  unfold postInit
  split_ifs <;> simp_all

lemma postInit_limit_pos (q : SearchParams) : 1 ≤ (postInit q).limit := by
  unfold postInit
  split_ifs <;> simp_all <;> split_ifs <;> omega

lemma pySlice_of_nonneg {α : Type} (xs : List α) (off lim : ℤ)
    (h1 : 0 ≤ off) (h2 : 0 ≤ lim) :
    pySlice xs off (off + lim) = (xs.drop off.toNat).take lim.toNat := by
  unfold pySlice pySliceIdx
  rw [if_neg (by omega), if_neg (by omega)]
  have htn : (off + lim).toNat = off.toNat + lim.toNat := by omega
  rw [htn]
  have ht : xs.take (min (off.toNat + lim.toNat) xs.length) = xs.take (off.toNat + lim.toNat) := by
    rw [List.take_eq_take]
    omega
  rw [ht]
  by_cases hc : off.toNat ≤ xs.length
  · rw [min_eq_left hc, List.drop_take]
    congr 1
    omega
  · have hxs : xs.take (off.toNat + lim.toNat) = xs := by
      apply List.take_of_length_le
      omega
    rw [min_eq_right (by omega), hxs]
    rw [List.drop_eq_nil_of_le (by omega), List.drop_eq_nil_of_le (by omega)]
    simp

/-- C1: for every list of records and every constructed search
parameter set, the paginate stage returns the slice of indices
offset up to offset + limit clipped to the collection bounds (an
offset at or past the length gives an empty page), totalCount is the
pre-pagination length, has_more holds exactly when
offset + limit < totalCount, and the search operation sets
next_offset to offset + limit when has_more holds and to -1
otherwise. -/
theorem paginate_offset_limit_spec (items allMemos : List Memo) (q : SearchParams) :
    (paginateResults items (postInit q)).1 =
      (items.drop (postInit q).offset.toNat).take (postInit q).limit.toNat ∧
    ((items.length : ℤ) ≤ (postInit q).offset → (paginateResults items (postInit q)).1 = []) ∧
    (paginateResults items (postInit q)).2.2 = items.length ∧
    ((paginateResults items (postInit q)).2.1 = true ↔
      (postInit q).offset + (postInit q).limit < (items.length : ℤ)) ∧
    (searchMemosEnhanced allMemos (postInit q)).next_offset =
      (if (searchMemosEnhanced allMemos (postInit q)).has_more = true
        then (postInit q).offset + (postInit q).limit else -1) := by
  have hoff := postInit_offset_nonneg q
  have hlim := postInit_limit_pos q
  have hpage : (paginateResults items (postInit q)).1 =
      (items.drop (postInit q).offset.toNat).take (postInit q).limit.toNat := by
    unfold paginateResults
    exact pySlice_of_nonneg items _ _ hoff (by omega)
  refine ⟨hpage, ?_, rfl, ?_, ?_⟩
  · intro hle
    rw [hpage, List.drop_eq_nil_of_le (by omega)]
    simp
  · unfold paginateResults
    simp
  · simp only [searchMemosEnhanced]

/-- Witness for paginate_offset_limit_spec at the empty collection
with default parameters: the hypothesis of the empty-page clause is
discharged concretely. -/
theorem paginate_offset_limit_spec_witness :
    ((([] : List Memo).length : ℤ) ≤
      (postInit (SearchParams.mk [] 10 0 [] false 500 none none []
        ResponseFormat.summary false)).offset) ∧
    (paginateResults ([] : List Memo)
      (postInit (SearchParams.mk [] 10 0 [] false 500 none none []
        ResponseFormat.summary false))).1 = [] :=
  ⟨by decide,
    (paginate_offset_limit_spec [] []
      (SearchParams.mk [] 10 0 [] false 500 none none []
        ResponseFormat.summary false)).2.1 (by decide)⟩

/-- C8: paginating with offset 0 and limit equal to the length of the
list is the identity on the page and reports no further page. -/
theorem paginate_full_window_identity (items : List Memo) :
    (paginateResults items
      (SearchParams.mk [] (items.length : ℤ) 0 [] false 500 none none []
        ResponseFormat.summary false)).1 = items ∧
    (paginateResults items
      (SearchParams.mk [] (items.length : ℤ) 0 [] false 500 none none []
        ResponseFormat.summary false)).2.1 = false := by
  constructor
  · show pySlice items 0 (0 + (items.length : ℤ)) = items
    rw [pySlice_of_nonneg items 0 (items.length : ℤ) (by omega) (by omega)]
    simp
  · show decide ((0 : ℤ) + (items.length : ℤ) < (items.length : ℤ)) = false
    simp

lemma ite_filter_prop (c : Prop) [Decidable c] (f : Memo → Bool) (l : List Memo) :
    (if c then l.filter f else l) = l.filter (fun m => !decide c || f m) := by
  split
  · next h => simp [h]
  · next h => simp [h]

lemma applyDateFilter_eq (l : List Memo) (dateFrom dateTo : Option (List Char)) :
    applyDateFilter l dateFrom dateTo =
      (l.filter (fun m => !optTruthy dateFrom || pyStrLe (dateFrom.getD []) m.createTime)).filter
        (fun m => !optTruthy dateTo || pyStrLe m.createTime (dateTo.getD [])) := by
  unfold applyDateFilter
  cases hdf : optTruthy dateFrom <;> cases hdt : optTruthy dateTo <;> simp

lemma date_guard_collapse (l : List Memo) (dateFrom dateTo : Option (List Char)) :
    (if (optTruthy dateFrom || optTruthy dateTo) = true then applyDateFilter l dateFrom dateTo
      else l) = applyDateFilter l dateFrom dateTo := by
  cases hdf : optTruthy dateFrom <;> cases hdt : optTruthy dateTo <;>
    simp [applyDateFilter, hdf, hdt]

lemma filterStage_eq (allMemos : List Memo) (p : SearchParams) :
    filterStage allMemos p = allMemos.filter (fun m => matchesAllPredicates m p) := by
  unfold filterStage
  rw [date_guard_collapse, ite_filter_prop, ite_filter_prop, applyDateFilter_eq,
    List.filter_filter, List.filter_filter, List.filter_filter]
  apply List.filter_congr
  intro m _
  unfold matchesAllPredicates
  cases (!decide (p.query ≠ []) || isSubstr (lowerStr m.content) (lowerStr p.query)) <;>
    cases (!decide (p.tags_filter ≠ []) || p.tags_filter.any fun t => m.tags.contains t) <;>
    cases (!optTruthy p.date_from || pyStrLe (p.date_from.getD []) m.createTime) <;>
    cases (!optTruthy p.date_to || pyStrLe m.createTime (p.date_to.getD [])) <;>
    rfl

/-- C2: the filter stage keeps exactly the records satisfying the
conjunction of the active predicates — case-insensitive substring
match of the query against content when the query is non-empty, exact
case-sensitive equality of some record tag with some filter tag when
tags_filter is non-empty (disjunction within tags_filter), and the
inclusive lexicographic date bounds when each is active — and when no
record matches, the result is the empty list rather than an error. -/
theorem filter_stage_conjunction (allMemos : List Memo) (p : SearchParams) :
    filterStage allMemos p = allMemos.filter (fun m => matchesAllPredicates m p) ∧
    ((∀ m ∈ allMemos, matchesAllPredicates m p = false) → filterStage allMemos p = []) := by
  refine ⟨filterStage_eq allMemos p, ?_⟩
  intro hnone
  rw [filterStage_eq]
  rw [List.filter_eq_nil_iff]
  intro a ha
  simp [hnone a ha]

/-- Witness for filter_stage_conjunction on a one-record collection
whose record fails the text predicate. -/
theorem filter_stage_conjunction_witness :
    (∀ m ∈ [Memo.mk "m".data "zz".data [] "t".data "t".data],
      matchesAllPredicates m
        (SearchParams.mk "x".data 10 0 [] false 500 none none []
          ResponseFormat.summary false) = false) ∧
    filterStage [Memo.mk "m".data "zz".data [] "t".data "t".data]
      (SearchParams.mk "x".data 10 0 [] false 500 none none []
        ResponseFormat.summary false) = [] :=
  ⟨by decide,
    (filter_stage_conjunction [Memo.mk "m".data "zz".data [] "t".data "t".data]
      (SearchParams.mk "x".data 10 0 [] false 500 none none []
        ResponseFormat.summary false)).2 (by decide)⟩

/-- C3: the relevance score is exactly 0.5 for an empty query, and
otherwise exactly min of 1 and one tenth of the case-insensitive
occurrence count plus a title bonus of 2 when the query occurs
case-insensitively in the first line, plus a tag bonus of 1 when some
tag contains the query case-insensitively, plus a position score of
1 - firstMatchIndex / contentLength when a match exists and 0
otherwise. -/
theorem relevance_score_formula (content query : List Char) (tags : List (List Char)) :
    calculateRelevanceScore content query tags =
      if query = [] then 1 / 2
      else
        min 1
          (((strCount (lowerStr content) (lowerStr query) : ℚ) +
            (if isSubstr (lowerStr (firstLineOf content)) (lowerStr query) = true
              then 2 else 0) +
            (if tags.any (fun t => isSubstr (lowerStr t) (lowerStr query)) = true
              then 1 else 0) +
            (match strFind (lowerStr content) (lowerStr query) with
              | some i => 1 - (i : ℚ) / (content.length : ℚ)
              | none => 0)) / 10) := by
  unfold calculateRelevanceScore
  by_cases hq : query = []
  · simp [hq]
  · rw [if_neg hq, if_neg hq]
    have hfl : (if content ≠ [] then (content.splitOn '\n').headD [] else []) =
        firstLineOf content := by
      by_cases hc : content = []
      · subst hc
        rfl
      · simp [hc, firstLineOf]
    have htag : (if tags ≠ [] ∧ tags.any (fun t => isSubstr (lowerStr t) (lowerStr query)) = true
        then (1 : ℚ) else 0) =
        (if tags.any (fun t => isSubstr (lowerStr t) (lowerStr query)) = true
        then (1 : ℚ) else 0) := by
      cases tags <;> simp
    dsimp only
    rw [hfl, htag]

lemma strFind_nil_of_ne (pat : List Char) (hp : pat ≠ []) : strFind [] pat = none := by
  cases pat with
  | nil => exact absurd rfl hp
  | cons c cs => rfl

lemma lowerStr_ne_nil (s : List Char) (hs : s ≠ []) : lowerStr s ≠ [] := by
  simpa [lowerStr] using hs

lemma lowerStr_length (s : List Char) : (lowerStr s).length = s.length :=
  List.length_map s Char.toLower

lemma extractLoop_eq_map (content query cl ql : List Char) (contextChars : Nat) :
    ∀ fuel start, extractLoop content query cl ql contextChars fuel start =
      (overlapPositionsAux cl ql fuel start).map (snippetAtPos content query contextChars) := by
  intro fuel
  induction fuel with
  | zero => intro start; rfl
  | succ n ih =>
    intro start
    unfold extractLoop overlapPositionsAux
    cases h : findFrom cl ql start <;> simp [h, ih]

lemma overlapPositions_nil (pat : List Char) (hp : pat ≠ []) :
    overlapPositions [] pat = [] := by
  unfold overlapPositions overlapPositionsAux findFrom
  rw [List.drop_nil, strFind_nil_of_ne pat hp]

/-- C4: snippet extraction returns the empty list for an empty query
or empty content; otherwise it returns one snippet per occurrence
found by the case-insensitive left-to-right scan that resumes from
matchStart + 1 (overlapping occurrences re-found, not deduplicated);
in particular the content hello world hello with query hello yields
exactly two entries. -/
theorem extract_snippets_overlap_scan :
    (∀ (content : List Char) (contextChars : Nat),
      extractSnippetAroundMatch content [] contextChars = []) ∧
    (∀ (query : List Char) (contextChars : Nat),
      extractSnippetAroundMatch [] query contextChars = []) ∧
    (∀ (content query : List Char) (contextChars : Nat), query ≠ [] →
      (extractSnippetAroundMatch content query contextChars).length =
        (overlapPositions (lowerStr content) (lowerStr query)).length) ∧
    (extractSnippetAroundMatch "hello world hello".data "hello".data 50).length = 2 := by
  refine ⟨?_, ?_, ?_, by decide⟩
  · intro content contextChars
    unfold extractSnippetAroundMatch
    rw [if_pos (Or.inl rfl)]
  · intro query contextChars
    unfold extractSnippetAroundMatch
    rw [if_pos (Or.inr rfl)]
  · intro content query contextChars hq
    by_cases hc : content = []
    · subst hc
      unfold extractSnippetAroundMatch
      rw [if_pos (Or.inr rfl)]
      rw [show lowerStr [] = [] from rfl, overlapPositions_nil _ (lowerStr_ne_nil query hq)]
      rfl
    · unfold extractSnippetAroundMatch
      rw [if_neg (by tauto)]
      rw [extractLoop_eq_map, List.length_map]
      unfold overlapPositions
      rw [lowerStr_length]

/-- Witness for extract_snippets_overlap_scan: the non-empty-query
clause instantiated at a concrete content and query. -/
theorem extract_snippets_overlap_scan_witness :
    ("x".data ≠ []) ∧
    (extractSnippetAroundMatch "ax".data "x".data 50).length =
      (overlapPositions (lowerStr "ax".data) (lowerStr "x".data)).length :=
  ⟨by decide, extract_snippets_overlap_scan.2.2.1 "ax".data "x".data 50 (by decide)⟩

/-- C5 counterexample: for content ab ab and query ab, both snippets
come out with BOTH textual occurrences of the matched substring
wrapped (Python str.replace replaces every occurrence), and the
produced snippet differs from the first-occurrence-only marking the
specification describes. -/
theorem snippet_marking_counterexample :
    extractSnippetAroundMatch "ab ab".data "ab".data 50 =
      ["**ab** **ab**".data, "**ab** **ab**".data] ∧
    "**ab** **ab**".data ≠ highlightFirstOccurrence "ab ab".data "ab".data := by
  refine ⟨by decide, by decide⟩

/-- C5 amended: every snippet returned for a match position is the
context window processed by pyReplace, which wraps EVERY textual
occurrence of the exact original-case matched substring inside the
snippet window with the paired marker token — not only the first
occurrence. -/
theorem snippet_marking_replaces_all (content query : List Char) (contextChars : Nat)
    (s : List Char) (hs : s ∈ extractSnippetAroundMatch content query contextChars) :
    ∃ pos ∈ overlapPositions (lowerStr content) (lowerStr query),
      s = snippetAtPos content query contextChars pos := by
  unfold extractSnippetAroundMatch at hs
  by_cases hg : query = [] ∨ content = []
  · rw [if_pos hg] at hs
    exact absurd hs (List.not_mem_nil s)
  · rw [if_neg hg] at hs
    rw [extractLoop_eq_map] at hs
    obtain ⟨pos, hpos, heq⟩ := List.mem_map.mp hs
    refine ⟨pos, ?_, heq.symm⟩
    unfold overlapPositions
    rw [lowerStr_length]
    exact hpos

/-- Witness for snippet_marking_replaces_all at the ab ab example. -/
theorem snippet_marking_replaces_all_witness :
    ∃ pos ∈ overlapPositions (lowerStr "ab ab".data) (lowerStr "ab".data),
      "**ab** **ab**".data = snippetAtPos "ab ab".data "ab".data 50 pos :=
  snippet_marking_replaces_all "ab ab".data "ab".data 50 "**ab** **ab**".data (by decide)

/-- C6 counterexample: for the two-line content whose second line is
the list item star a, the structural summary appends that list line
again in the second pass, so the line occurs twice in the output
while occurring once in the content. -/
theorem summary_second_pass_counterexample :
    generateSmartSummary (Memo.mk "m".data "T\n* a".data [] [] []) [] 500 =
      "T\n* a\n* a".data ∧
    strCount "T\n* a\n* a".data "* a".data = 2 ∧
    strCount "T\n* a".data "* a".data = 1 := by
  refine ⟨by decide, by decide, by decide⟩

lemma summaryPass2_mem (remaining : ℤ) :
    ∀ (ls parts : List (List Char)) (x : List Char),
      x ∈ summaryPass2 remaining parts ls →
      x ∈ parts ∨ (x ≠ [] ∧ pyStartsWith x "#".data = false ∧
        pyStartsWith x "-".data = false) := by
  intro ls
  induction ls with
  | nil =>
    intro parts x hx
    exact Or.inl hx
  | cons l ls ih =>
    intro parts x hx
    unfold summaryPass2 at hx
    by_cases hline : pyStrip l ≠ [] ∧ pyStartsWith (pyStrip l) "#".data = false ∧
        pyStartsWith (pyStrip l) "-".data = false
    · rw [if_pos hline] at hx
      by_cases hbud : (joinLen parts : ℤ) + (pyStrip l).length < remaining
      · rw [if_pos hbud] at hx
        rcases ih (parts ++ [pyStrip l]) x hx with hmem | hpred
        · rcases List.mem_append.mp hmem with hp | hl
          · exact Or.inl hp
          · right
            rw [List.mem_singleton.mp hl]
            exact hline
        · exact Or.inr hpred
      · rw [if_neg hbud] at hx
        exact ih parts x hx
    · rw [if_neg hline] at hx
      exact ih parts x hx

/-- C6 amended: the second structural-summary pass runs only while
the joined first-pass summary is under 70 percent of maxLength, and
every line it appends is non-blank and starts with neither the hash
marker nor the dash marker; lines starting with the star marker or
the numeral marker pass this filter too, so a list line appended by
the first pass can be appended a second time. -/
theorem summary_second_pass_filters :
    (∀ (remaining : ℤ) (parts ls : List (List Char)) (x : List Char),
      x ∈ summaryPass2 remaining parts ls →
      x ∈ parts ∨ (x ≠ [] ∧ pyStartsWith x "#".data = false ∧
        pyStartsWith x "-".data = false)) ∧
    (∀ (l0 : List Char) (rest : List (List Char)) (maxLength : ℤ),
      ¬ (10 * (joinLen (summaryPass1 (maxLength - (l0.length : ℤ)) [l0] rest) : ℤ) <
          7 * maxLength) →
      structuralSummaryParts (l0 :: rest) maxLength =
        summaryPass1 (maxLength - (l0.length : ℤ)) [l0] rest) := by
  constructor
  · intro remaining parts ls x hx
    exact summaryPass2_mem remaining ls parts x hx
  · intro l0 rest maxLength hgate
    unfold structuralSummaryParts
    dsimp only
    rw [if_neg hgate]

/-- Witness for summary_second_pass_filters: the membership clause at
a concrete pass, and the gate clause at a budget already exceeded. -/
theorem summary_second_pass_filters_witness :
    (("b".data ∈ summaryPass2 100 [] ["b".data]) ∧
      ("b".data ∈ ([] : List (List Char)) ∨ ("b".data ≠ [] ∧
        pyStartsWith "b".data "#".data = false ∧
        pyStartsWith "b".data "-".data = false))) ∧
    structuralSummaryParts ["T".data] 0 = summaryPass1 (0 - ("T".data.length : ℤ)) ["T".data] [] :=
  ⟨⟨by decide, summary_second_pass_filters.1 100 [] ["b".data] "b".data (by decide)⟩,
    summary_second_pass_filters.2 "T".data [] 0 (by decide)⟩

/-- C7: with an active text query, the relevance re-sort only
permutes the already-paginated, already-formatted page: the returned
memos are a permutation of the formatted page (so the multiset of ids
is unchanged and no record outside the paginated window is pulled
in). -/
theorem relevance_resort_permutes_page (allMemos : List Memo) (p : SearchParams)
    (_hq : p.query ≠ []) :
    (searchMemosEnhanced allMemos p).memos.Perm
      ((paginateResults (sortStage (filterStage allMemos p)) p).1.map
        (fun m => applyResponseFormat m p p.query)) ∧
    ((searchMemosEnhanced allMemos p).memos.map (fun f => f.id)).Perm
      (((paginateResults (sortStage (filterStage allMemos p)) p).1.map
        (fun m => applyResponseFormat m p p.query)).map (fun f => f.id)) := by
  have hperm : (searchMemosEnhanced allMemos p).memos.Perm
      ((paginateResults (sortStage (filterStage allMemos p)) p).1.map
        (fun m => applyResponseFormat m p p.query)) := by
    simp only [searchMemosEnhanced]
    split
    · exact List.perm_insertionSort _ _
    · exact List.Perm.refl _
  exact ⟨hperm, hperm.map _⟩

/-- Witness for relevance_resort_permutes_page on a one-record
collection with a matching query. -/
theorem relevance_resort_permutes_page_witness :
    (searchMemosEnhanced [Memo.mk "a".data "xy".data [] "t".data "t".data]
      (SearchParams.mk "x".data 10 0 [] false 500 none none []
        ResponseFormat.summary false)).memos.Perm
      ((paginateResults
        (sortStage (filterStage [Memo.mk "a".data "xy".data [] "t".data "t".data]
          (SearchParams.mk "x".data 10 0 [] false 500 none none []
            ResponseFormat.summary false)))
        (SearchParams.mk "x".data 10 0 [] false 500 none none []
          ResponseFormat.summary false)).1.map
        (fun m => applyResponseFormat m
          (SearchParams.mk "x".data 10 0 [] false 500 none none []
            ResponseFormat.summary false)
          (SearchParams.mk "x".data 10 0 [] false 500 none none []
            ResponseFormat.summary false).query)) :=
  (relevance_resort_permutes_page [Memo.mk "a".data "xy".data [] "t".data "t".data]
    (SearchParams.mk "x".data 10 0 [] false 500 none none []
      ResponseFormat.summary false) (by decide)).1

lemma strFind_le_length :
    ∀ (hay pat : List Char) (i : Nat), strFind hay pat = some i → i ≤ hay.length := by
  intro hay
  induction hay with
  | nil =>
    intro pat i h
    unfold strFind at h
    by_cases hp : pyStartsWith [] pat = true
    · rw [if_pos hp] at h
      cases h
      exact Nat.le_refl 0
    · rw [if_neg hp] at h
      exact absurd h (by simp)
  | cons c t ih =>
    intro pat i h
    unfold strFind at h
    by_cases hp : pyStartsWith (c :: t) pat = true
    · rw [if_pos hp] at h
      cases h
      exact Nat.zero_le _
    · rw [if_neg hp] at h
      dsimp only at h
      cases hf : strFind t pat with
      | none =>
        rw [hf] at h
        exact absurd h (by simp)
      | some j =>
        rw [hf] at h
        cases h
        have := ih pat j hf
        simp only [List.length_cons]
        omega

lemma iteNonnegQ (c : Prop) [Decidable c] (x : ℚ) (hx : 0 ≤ x) :
    (0 : ℚ) ≤ if c then x else 0 := by
  split
  · exact hx
  · exact le_refl 0

/-- C9: for a non-empty query the relevance-score computation is
total: on empty content the first-match lookup yields the no-match
sentinel, so the division by contentLength is never taken on an empty
content, and the resulting score always lies in the closed interval
from 0 to 1. -/
theorem relevance_score_total_bounded (content query : List Char) (tags : List (List Char))
    (hq : query ≠ []) :
    (content = [] → strFind (lowerStr content) (lowerStr query) = none) ∧
    0 ≤ calculateRelevanceScore content query tags ∧
    calculateRelevanceScore content query tags ≤ 1 := by
  refine ⟨?_, ?_, ?_⟩
  · intro hc
    subst hc
    exact strFind_nil_of_ne _ (lowerStr_ne_nil query hq)
  · unfold calculateRelevanceScore
    rw [if_neg hq]
    dsimp only
    refine le_min (by norm_num) (div_nonneg ?_ (by norm_num))
    refine add_nonneg (add_nonneg (add_nonneg (Nat.cast_nonneg _)
      (iteNonnegQ _ 2 (by norm_num))) (iteNonnegQ _ 1 (by norm_num))) ?_
    cases hf : strFind (lowerStr content) (lowerStr query) with
    | none => norm_num
    | some i =>
      have hcne : content ≠ [] := by
        intro hc
        have hnone : strFind (lowerStr content) (lowerStr query) = none := by
          rw [hc]
          exact strFind_nil_of_ne _ (lowerStr_ne_nil query hq)
        rw [hnone] at hf
        exact Option.noConfusion hf
      have hlen : 0 < content.length := List.length_pos.mpr hcne
      have hile : i ≤ content.length := by
        have := strFind_le_length (lowerStr content) (lowerStr query) i hf
        rwa [lowerStr_length] at this
      have hdiv : (i : ℚ) / (content.length : ℚ) ≤ 1 := by
        rw [div_le_one (by exact_mod_cast hlen)]
        exact_mod_cast hile
      dsimp only
      linarith
  · unfold calculateRelevanceScore
    rw [if_neg hq]
    exact min_le_left _ _

/-- Witness for relevance_score_total_bounded at empty content and a
concrete non-empty query, discharging the sentinel clause. -/
theorem relevance_score_total_bounded_witness :
    strFind (lowerStr []) (lowerStr "b".data) = none ∧
    0 ≤ calculateRelevanceScore [] "b".data [] ∧
    calculateRelevanceScore [] "b".data [] ≤ 1 :=
  ⟨(relevance_score_total_bounded [] "b".data [] (by decide)).1 rfl,
    (relevance_score_total_bounded [] "b".data [] (by decide)).2.1,
    (relevance_score_total_bounded [] "b".data [] (by decide)).2.2⟩

lemma applyResponseFormat_no_relevance (m : Memo) (p : SearchParams) (q : List Char)
    (h : p.response_format ≠ ResponseFormat.summary ∨ q = []) :
    (applyResponseFormat m p q).relevance_score = none ∧
    (applyResponseFormat m p q).match_snippets = none := by
  unfold applyResponseFormat
  rcases h with h | h
  · split_ifs <;> simp_all
  · subst h
    split_ifs <;> simp_all

/-- C10: relevance scores and match snippets are attached only in the
summary format with a non-empty query; consequently for the full,
minimal and id_only formats the re-sort condition never holds and the
returned page is exactly the formatted paginated page, in the
createTime-descending order produced by the sort stage. -/
theorem relevance_attachment_only_summary :
    (∀ (m : Memo) (p : SearchParams) (q : List Char),
      (p.response_format ≠ ResponseFormat.summary ∨ q = []) →
      (applyResponseFormat m p q).relevance_score = none ∧
      (applyResponseFormat m p q).match_snippets = none) ∧
    (∀ (allMemos : List Memo) (p : SearchParams),
      p.response_format ≠ ResponseFormat.summary →
      (searchMemosEnhanced allMemos p).memos =
        (paginateResults (sortStage (filterStage allMemos p)) p).1.map
          (fun m => applyResponseFormat m p p.query)) := by
  constructor
  · exact fun m p q h => applyResponseFormat_no_relevance m p q h
  · intro allMemos p h
    simp only [searchMemosEnhanced]
    rw [if_neg]
    intro hcond
    obtain ⟨hq, hany⟩ := hcond
    rw [List.any_eq_true] at hany
    obtain ⟨f, hf, hsome⟩ := hany
    obtain ⟨m, hm, rfl⟩ := List.mem_map.mp hf
    rw [(applyResponseFormat_no_relevance m p p.query (Or.inl h)).1] at hsome
    exact Bool.noConfusion hsome

/-- Witness for relevance_attachment_only_summary at the full format
with an active query: no score or snippets are attached and the page
keeps the paginated order. -/
theorem relevance_attachment_only_summary_witness :
    ((applyResponseFormat (Memo.mk "a".data "xy".data [] "t".data "t".data)
        (SearchParams.mk "x".data 10 0 [] false 500 none none []
          ResponseFormat.full false) "x".data).relevance_score = none ∧
      (applyResponseFormat (Memo.mk "a".data "xy".data [] "t".data "t".data)
        (SearchParams.mk "x".data 10 0 [] false 500 none none []
          ResponseFormat.full false) "x".data).match_snippets = none) ∧
    (searchMemosEnhanced [Memo.mk "a".data "xy".data [] "t".data "t".data]
      (SearchParams.mk "x".data 10 0 [] false 500 none none []
        ResponseFormat.full false)).memos =
      (paginateResults
        (sortStage (filterStage [Memo.mk "a".data "xy".data [] "t".data "t".data]
          (SearchParams.mk "x".data 10 0 [] false 500 none none []
            ResponseFormat.full false)))
        (SearchParams.mk "x".data 10 0 [] false 500 none none []
          ResponseFormat.full false)).1.map
        (fun m => applyResponseFormat m
          (SearchParams.mk "x".data 10 0 [] false 500 none none []
            ResponseFormat.full false)
          (SearchParams.mk "x".data 10 0 [] false 500 none none []
            ResponseFormat.full false).query) :=
  ⟨relevance_attachment_only_summary.1
      (Memo.mk "a".data "xy".data [] "t".data "t".data)
      (SearchParams.mk "x".data 10 0 [] false 500 none none []
        ResponseFormat.full false) "x".data (Or.inl (by decide)),
    relevance_attachment_only_summary.2
      [Memo.mk "a".data "xy".data [] "t".data "t".data]
      (SearchParams.mk "x".data 10 0 [] false 500 none none []
        ResponseFormat.full false) (by decide)⟩
